import Mathlib

/-!
Shallow embedding of `src/app/src/lib/git/checkout.ts`.

The checkout module builds git argument lists, constructs execution options
(environment overlay, recognized-error table, optional progress tracking) and
invokes the git process runner.  Side effects (progress-callback invocations
and the subprocess spawn) are made explicit as an ordered trace of `Action`s;
the lines the running subprocess produces, already parsed by the progress
stream parser, are an explicit input (`List ParsedLine`), and the build-time
constants `__DARWIN__` and `enableRecurseSubmodulesFlag()` are explicit
boolean parameters.

Collaborators that live outside this module (`core.ts`, the progress module,
`authentication.ts`, `environment.ts`, `models/commit.ts`) are modelled from
the spec where noted.
-/

namespace Checkout

/-- Branch type from the branch model: a branch is either local or remote-tracking. -/
inductive BranchType where
  | Local
  | Remote
deriving DecidableEq, Repr

/-- Branch descriptor: the parts of the external branch model the checkout
module reads (name, local name when remote-tracking, branch type). -/
structure Branch where
  name : String
  nameWithoutRemote : String
  type : BranchType
deriving DecidableEq, Repr

/-- Commit descriptor: the parts of `CommitOneLine` the checkout module reads. -/
structure CommitOneLine where
  sha : String
  summary : String
deriving DecidableEq, Repr

/-- Modelled from the spec: `shortenSHA` from `models/commit.ts` is not under
`src/`; per the spec a commit carries a short-form display of its SHA. -/
def shortenSHA (sha : String) : String := sha.take 9

/-- Repository descriptor: the path the checkout module passes to git, plus
the remote URL available to the proxy-fallback resolver. -/
structure Repository where
  path : String
  remoteUrl : String
deriving DecidableEq, Repr

/-- Account credential object, an opaque external collaborator. -/
structure IGitAccount where
  login : String
  endpoint : String
deriving DecidableEq, Repr

/-- One checkout progress event as delivered to the caller's callback:
`{ kind, title, description, value, target }`. -/
structure ICheckoutProgress where
  kind : String
  title : String
  description : String
  value : ℚ
  target : String
deriving DecidableEq, Repr

/-- Modelled from the spec: the progress stream parser (progress module, not
under `src/`) produces lines of kind `progress` carrying a percent and a
display text, and raw lines carrying just text. -/
inductive ParsedLine where
  | progress (percent : ℚ) (text : String)
  | raw (text : String)
deriving DecidableEq, Repr

/-- Modelled from the spec: `gitNetworkArguments()` from `core.ts` is not
under `src/`; it is a fixed set of network-safety arguments prepended ahead
of the subcommand, e.g. disabling interactive credential prompts. -/
def gitNetworkArguments : List String := ["-c", "credential.helper="]

/-- Modelled from the spec: `AuthenticationErrors` from `authentication.ts`
is not under `src/`; it is the table of known authentication-failure
signatures used to classify failures. -/
def AuthenticationErrors : List String :=
  ["fatal: Authentication failed", "Permission denied (publickey)",
   "could not read Username"]

/-- Modelled from the spec: the environment overlay built by
`envForRemoteOperation` (from `environment.ts`, not under `src/`) from the
supplied account and the proxy-fallback URL.  The exact variable names are an
implementation detail of that collaborator, so the overlay is represented by
its two inputs. -/
structure GitEnv where
  account : Option IGitAccount
  fallbackUrl : String

/-- Modelled from the spec: `getFallbackUrlForProxyResolve` from
`environment.ts` is not under `src/`; it resolves a fallback URL for proxy
resolution from the account and repository. -/
def getFallbackUrlForProxyResolve (_account : Option IGitAccount)
    (repository : Repository) : String :=
  repository.remoteUrl

/-- Modelled from the spec: `envForRemoteOperation` from `environment.ts` is
not under `src/`; it folds the optional account and the fallback URL into the
environment overlay for the spawned process. -/
def envForRemoteOperation (account : Option IGitAccount) (fallbackUrl : String) :
    GitEnv :=
  { account := account, fallbackUrl := fallbackUrl }

/-- Execution options handed to the git process runner: environment overlay,
recognized-error table, LFS-progress flag, and the progress consumer attached
by `executionOptionsWithProgress` (absent keys are `none`).  The consumer is
modelled by the event it delivers to the caller's callback for a parsed line
(`none` when the line produces no callback invocation). -/
structure IGitExecutionOptions where
  env : Option GitEnv
  expectedErrors : Option (List String)
  trackLFSProgress : Option Bool
  progressHandler : Option (ParsedLine → Option ICheckoutProgress)

/-- Modelled from the spec: `executionOptionsWithProgress` from the progress
module is not under `src/`; it wraps base execution options with
progress-tracking enabled, attaching a consumer that is fed every parsed
line, and preserves the remaining options. -/
def executionOptionsWithProgress (options : IGitExecutionOptions)
    (handler : ParsedLine → Option ICheckoutProgress) : IGitExecutionOptions :=
  { options with progressHandler := some handler }

/-- One observable action of a checkout invocation, in program order: an
invocation of the caller's progress callback, or the spawn of the git
subprocess with its argument list, working directory, operation name and
execution options. -/
inductive Action where
  | progressEvent (event : ICheckoutProgress)
  | spawnGit (args : List String) (path : String) (name : String)
      (opts : Option IGitExecutionOptions)

/-- Modelled from the spec: `git` from `core.ts` is not under `src/`; it
spawns the subprocess and, when a progress consumer is attached to the
options, feeds it every parsed line in program order, each delivered callback
invocation appearing as a `progressEvent`. -/
def git (args : List String) (path : String) (name : String)
    (opts : Option IGitExecutionOptions) (lines : List ParsedLine) :
    List Action :=
  Action.spawnGit args path name opts ::
    match opts.bind (fun o => o.progressHandler) with
    | some handler => (lines.filterMap handler).map Action.progressEvent
    | none => []

/-- `getCheckoutArgs` from checkout.ts: network-safety arguments, the
`checkout` subcommand, and `--progress` exactly when a progress callback was
supplied. -/
def getCheckoutArgs (progressCallback : Bool) : List String :=
  if progressCallback then gitNetworkArguments ++ ["checkout", "--progress"]
  else gitNetworkArguments ++ ["checkout"]

/-- `getBranchCheckoutArgs` from checkout.ts, with the build-time feature
flag `enableRecurseSubmodulesFlag()` as an explicit parameter. -/
def getBranchCheckoutArgs (enableRecurseSubmodulesFlag : Bool) (branch : Branch) :
    List String :=
  if enableRecurseSubmodulesFlag then
    if branch.type = BranchType.Remote then
      [branch.name, "-b", branch.nameWithoutRemote, "--recurse-submodules", "--"]
    else
      [branch.name, "--recurse-submodules", "--"]
  else
    if branch.type = BranchType.Remote then
      [branch.name, "-b", branch.nameWithoutRemote, "--"]
    else
      [branch.name, "--"]

/-- The progress consumer installed by `getCheckoutOpts`: for a parsed line
of kind `progress` it invokes the caller's callback once with the parsed
percent and text under the invocation's constant kind/title/target; any
other line produces no invocation. -/
def checkoutProgressHandler (title target : String) (progress : ParsedLine) :
    Option ICheckoutProgress :=
  match progress with
  | ParsedLine.progress percent text =>
      some { kind := "checkout", title := title, description := text,
             value := percent, target := target }
  | ParsedLine.raw _ => none

/-- `getCheckoutOpts` from checkout.ts.  Returns the execution options
together with the trace of progress-callback invocations it performs (the
initial value-0 event when a callback is supplied). -/
def getCheckoutOpts (repository : Repository) (account : Option IGitAccount)
    (title target : String) (progressCallback : Bool)
    (initialDescription : Option String) :
    IGitExecutionOptions × List Action :=
  let opts : IGitExecutionOptions :=
    { env := some (envForRemoteOperation account
        (getFallbackUrlForProxyResolve account repository)),
      expectedErrors := some AuthenticationErrors,
      trackLFSProgress := none,
      progressHandler := none }
  if !progressCallback then
    (opts, [])
  else
    (executionOptionsWithProgress { opts with trackLFSProgress := some true }
       (checkoutProgressHandler title target),
     [Action.progressEvent
       { kind := "checkout", title := title,
         description := initialDescription.getD title,
         value := 0, target := target }])

/-- `checkoutBranch` from checkout.ts.  `darwin` is the build-time constant
`__DARWIN__`; `lines` are the parsed lines the subprocess produces;
`gitSucceeds` tells whether the git invocation succeeds.  Returns the action
trace and the resolution value (`none` when the invocation rejects). -/
def checkoutBranch (darwin enableRecurseSubmodulesFlag : Bool)
    (repository : Repository) (account : Option IGitAccount) (branch : Branch)
    (progressCallback : Bool) (lines : List ParsedLine) (gitSucceeds : Bool) :
    List Action × Option Bool :=
  let optsAndEvents := getCheckoutOpts repository account
      ("Checking out branch " ++ branch.name) branch.name progressCallback
      (some (if darwin then "Switching to Branch" else "Switching to branch"))
  let baseArgs := getCheckoutArgs progressCallback
  let args := baseArgs ++ getBranchCheckoutArgs enableRecurseSubmodulesFlag branch
  (optsAndEvents.2 ++
     git args repository.path "checkoutBranch" (some optsAndEvents.1) lines,
   if gitSucceeds then some true else none)

/-- `checkoutCommit` from checkout.ts. -/
def checkoutCommit (darwin : Bool) (repository : Repository)
    (account : Option IGitAccount) (commit : CommitOneLine)
    (progressCallback : Bool) (lines : List ParsedLine) (gitSucceeds : Bool) :
    List Action × Option Bool :=
  let title := if darwin then "Checking out Commit" else "Checking out commit"
  let optsAndEvents := getCheckoutOpts repository account title
      (shortenSHA commit.sha) progressCallback none
  let args := getCheckoutArgs progressCallback ++ [commit.sha]
  (optsAndEvents.2 ++
     git args repository.path "checkoutCommit" (some optsAndEvents.1) lines,
   if gitSucceeds then some true else none)

/-- `checkoutPaths` from checkout.ts: restores the given paths from HEAD,
invoking git with no execution options. -/
def checkoutPaths (repository : Repository) (paths : List String)
    (lines : List ParsedLine) : List Action :=
  git (["checkout", "HEAD", "--"] ++ paths) repository.path "checkoutPaths"
    none lines

/-- The git invocations of a trace, in order: argument list, working
directory, operation name and execution options of each spawn. -/
def gitInvocations (trace : List Action) :
    List (List String × String × String × Option IGitExecutionOptions) :=
  trace.filterMap fun a =>
    match a with
    | Action.spawnGit args path name opts => some (args, path, name, opts)
    | Action.progressEvent _ => none

/-- The progress events of a trace, in delivery order. -/
def emittedEvents (trace : List Action) : List ICheckoutProgress :=
  trace.filterMap fun a =>
    match a with
    | Action.progressEvent e => some e
    | Action.spawnGit _ _ _ _ => none

/-- The percent fields of the parser's progress lines, in order. -/
def progressPercents (lines : List ParsedLine) : List ℚ :=
  lines.filterMap fun l =>
    match l with
    | ParsedLine.progress percent _ => some percent
    | ParsedLine.raw _ => none

/-- C1: `getBranchCheckoutArgs` produces exactly one of four argument lists:
`[name, "-b", nameWithoutRemote, ...]` for a remote-tracking branch and
`[name, ...]` for a local branch, with `--recurse-submodules` inserted
exactly when the recursion flag is on, always terminated by a final `--`;
in particular `origin/feature-x` with the flag off gives
`["origin/feature-x", "-b", "feature-x", "--"]`, and with the flag on
`--recurse-submodules` appears immediately before the final `--`. -/
theorem getBranchCheckoutArgs_four_forms :
    (∀ (flag : Bool) (branch : Branch),
      getBranchCheckoutArgs flag branch =
        (if branch.type = BranchType.Remote then
          [branch.name, "-b", branch.nameWithoutRemote]
         else [branch.name]) ++
        (if flag then ["--recurse-submodules"] else []) ++ ["--"]) ∧
    (∀ (flag : Bool) (branch : Branch),
      (getBranchCheckoutArgs flag branch).getLast? = some "--") ∧
    getBranchCheckoutArgs false
      { name := "origin/feature-x", nameWithoutRemote := "feature-x",
        type := BranchType.Remote } =
      ["origin/feature-x", "-b", "feature-x", "--"] ∧
    getBranchCheckoutArgs true
      { name := "origin/feature-x", nameWithoutRemote := "feature-x",
        type := BranchType.Remote } =
      ["origin/feature-x", "-b", "feature-x", "--recurse-submodules", "--"] := by
  refine ⟨fun flag branch => ?_, fun flag branch => ?_, by decide, by decide⟩
  · cases flag <;> rcases branch with ⟨n, nwr, t⟩ <;> cases t <;>
      simp [getBranchCheckoutArgs]
  · cases flag <;> rcases branch with ⟨n, nwr, t⟩ <;> cases t <;>
      simp [getBranchCheckoutArgs]

/-- C2: `checkoutCommit` invokes git exactly once, with an argument list whose
last element is exactly the commit's SHA and which contains no `-b`, no
`--recurse-submodules` and no `--`, for any commit whose SHA is not itself one
of those flag strings. -/
theorem checkoutCommit_args_end_with_sha (darwin : Bool)
    (repository : Repository) (account : Option IGitAccount)
    (commit : CommitOneLine) (progressCallback : Bool)
    (lines : List ParsedLine) (gitSucceeds : Bool)
    (h : commit.sha ∉ (["-b", "--recurse-submodules", "--"] : List String)) :
    ∃ args opts,
      gitInvocations
        (checkoutCommit darwin repository account commit progressCallback
          lines gitSucceeds).1 =
        [(args, repository.path, "checkoutCommit", opts)] ∧
      args.getLast? = some commit.sha ∧
      "-b" ∉ args ∧ "--recurse-submodules" ∉ args ∧ "--" ∉ args := by
  simp only [List.mem_cons, List.not_mem_nil, or_false, not_or] at h
  obtain ⟨h1, h2, h3⟩ := h
  refine ⟨getCheckoutArgs progressCallback ++ [commit.sha],
    some (getCheckoutOpts repository account
      (if darwin then "Checking out Commit" else "Checking out commit")
      (shortenSHA commit.sha) progressCallback none).1, ?_, ?_, ?_, ?_, ?_⟩
  · cases progressCallback <;>
      simp [checkoutCommit, getCheckoutOpts, git, gitInvocations,
        executionOptionsWithProgress, List.filterMap_append]
  · simp
  · cases progressCallback <;>
      simp [getCheckoutArgs, gitNetworkArguments, Ne.symm h1, Ne.symm h2,
        Ne.symm h3]
  · cases progressCallback <;>
      simp [getCheckoutArgs, gitNetworkArguments, Ne.symm h1, Ne.symm h2,
        Ne.symm h3]
  · cases progressCallback <;>
      simp [getCheckoutArgs, gitNetworkArguments, Ne.symm h1, Ne.symm h2,
        Ne.symm h3]

/-- Witness for C2 at the spec's example SHA `abc123`. -/
theorem checkoutCommit_args_end_with_sha_witness :
    ("abc123" ∉ (["-b", "--recurse-submodules", "--"] : List String)) ∧
    ∃ args opts,
      gitInvocations
        (checkoutCommit false
          { path := "/repo", remoteUrl := "https://example.com/r.git" } none
          { sha := "abc123", summary := "m" } true [] true).1 =
        [(args, "/repo", "checkoutCommit", opts)] ∧
      args.getLast? = some "abc123" ∧
      "-b" ∉ args ∧ "--recurse-submodules" ∉ args ∧ "--" ∉ args :=
  ⟨by decide,
   checkoutCommit_args_end_with_sha false
     { path := "/repo", remoteUrl := "https://example.com/r.git" } none
     { sha := "abc123", summary := "m" } true [] true (by decide)⟩

/-- C3: with a progress callback supplied, `checkoutBranch` and
`checkoutCommit` invoke the callback exactly once with value 0 (kind
`checkout`, the caller-determined title and target, the description
defaulting to the title when no initial description is given) before the git
subprocess is spawned, and no progress event precedes this initial event:
the trace starts with exactly that event, immediately followed by the
spawn. -/
theorem checkout_initial_progress_event (darwin flag : Bool)
    (repository : Repository) (account : Option IGitAccount) (branch : Branch)
    (commit : CommitOneLine) (lines : List ParsedLine) (gitSucceeds : Bool) :
    (∃ args opts rest,
      (checkoutBranch darwin flag repository account branch true lines
        gitSucceeds).1 =
        Action.progressEvent
          { kind := "checkout",
            title := "Checking out branch " ++ branch.name,
            description :=
              if darwin then "Switching to Branch" else "Switching to branch",
            value := 0, target := branch.name } ::
        Action.spawnGit args repository.path "checkoutBranch" opts :: rest) ∧
    (∃ args opts rest,
      (checkoutCommit darwin repository account commit true lines
        gitSucceeds).1 =
        Action.progressEvent
          { kind := "checkout",
            title :=
              if darwin then "Checking out Commit" else "Checking out commit",
            description :=
              if darwin then "Checking out Commit" else "Checking out commit",
            value := 0, target := shortenSHA commit.sha } ::
        Action.spawnGit args repository.path "checkoutCommit" opts :: rest) := by
  constructor
  · refine ⟨getCheckoutArgs true ++ getBranchCheckoutArgs flag branch,
      some (getCheckoutOpts repository account
        ("Checking out branch " ++ branch.name) branch.name true
        (some (if darwin then "Switching to Branch"
               else "Switching to branch"))).1,
      (lines.filterMap (checkoutProgressHandler
        ("Checking out branch " ++ branch.name) branch.name)).map
        Action.progressEvent, ?_⟩
    simp [checkoutBranch, getCheckoutOpts, git, executionOptionsWithProgress]
  · refine ⟨getCheckoutArgs true ++ [commit.sha],
      some (getCheckoutOpts repository account
        (if darwin then "Checking out Commit" else "Checking out commit")
        (shortenSHA commit.sha) true none).1,
      (lines.filterMap (checkoutProgressHandler
        (if darwin then "Checking out Commit" else "Checking out commit")
        (shortenSHA commit.sha))).map Action.progressEvent, ?_⟩
    simp [checkoutCommit, getCheckoutOpts, git, executionOptionsWithProgress]

/-- C4: during one progress-tracked checkout invocation, every parsed line of
kind `progress` causes exactly one callback invocation carrying the line's
percent as value and its text as description under the invocation's constant
kind/title/target, while any other parsed line causes none; consequently the
events delivered during a progress-tracked `checkoutBranch` are the initial
event followed by exactly the image of the progress lines. -/
theorem checkoutProgressHandler_spec :
    (∀ (title target : String) (percent : ℚ) (text : String),
      checkoutProgressHandler title target (ParsedLine.progress percent text) =
        some { kind := "checkout", title := title, description := text,
               value := percent, target := target }) ∧
    (∀ (title target text : String),
      checkoutProgressHandler title target (ParsedLine.raw text) = none) ∧
    (∀ (darwin flag : Bool) (repository : Repository)
       (account : Option IGitAccount) (branch : Branch)
       (lines : List ParsedLine) (gitSucceeds : Bool),
      emittedEvents
        (checkoutBranch darwin flag repository account branch true lines
          gitSucceeds).1 =
        { kind := "checkout", title := "Checking out branch " ++ branch.name,
          description :=
            if darwin then "Switching to Branch" else "Switching to branch",
          value := 0, target := branch.name } ::
        lines.filterMap (checkoutProgressHandler
          ("Checking out branch " ++ branch.name) branch.name)) := by
  refine ⟨fun title target percent text => rfl,
    fun title target text => rfl,
    fun darwin flag repository account branch lines gitSucceeds => ?_⟩
  simp only [checkoutBranch, getCheckoutOpts, git, executionOptionsWithProgress,
    emittedEvents, Bool.not_true, Bool.false_eq_true, if_false, List.cons_append,
    List.nil_append, List.filterMap_cons, Option.bind_some]
  simp [List.filterMap_map, Function.comp_def]

/-- The values the checkout progress handler delivers are exactly the percent
fields of the progress lines, in order. -/
theorem handler_values_eq_percents (title target : String)
    (lines : List ParsedLine) :
    (lines.filterMap (checkoutProgressHandler title target)).map
      ICheckoutProgress.value = progressPercents lines := by
  induction lines with
  | nil => rfl
  | cons l rest ih =>
    cases l with
    | progress percent text =>
      simpa [checkoutProgressHandler, progressPercents,
        List.filterMap_cons] using ih
    | raw text =>
      simpa [checkoutProgressHandler, progressPercents,
        List.filterMap_cons] using ih

/-- C5: if the percent fields of the parser's progress lines are
monotonically increasing, the value fields of the progress events the
checkout progress adapter delivers for those lines are non-decreasing. -/
theorem checkout_progress_values_non_decreasing (title target : String)
    (lines : List ParsedLine)
    (h : (progressPercents lines).Chain' (fun a b => a < b)) :
    (((lines.filterMap (checkoutProgressHandler title target)).map
      ICheckoutProgress.value).Chain' (fun a b => a ≤ b)) := by
  rw [handler_values_eq_percents]
  exact h.imp fun a b hab => le_of_lt hab

/-- Witness for C5 on a concrete strictly increasing line sequence. -/
theorem checkout_progress_values_non_decreasing_witness :
    ((progressPercents
      [ParsedLine.progress 0 "a", ParsedLine.raw "x",
       ParsedLine.progress (1/2) "b", ParsedLine.progress 1 "c"]).Chain'
        (fun a b => a < b)) ∧
    ((([ParsedLine.progress 0 "a", ParsedLine.raw "x",
        ParsedLine.progress (1/2) "b",
        ParsedLine.progress 1 "c"].filterMap
          (checkoutProgressHandler "t" "g")).map
            ICheckoutProgress.value).Chain' (fun a b => a ≤ b)) :=
  ⟨by norm_num [progressPercents, List.filterMap_cons, List.chain'_cons],
   checkout_progress_values_non_decreasing "t" "g"
     [ParsedLine.progress 0 "a", ParsedLine.raw "x",
      ParsedLine.progress (1/2) "b", ParsedLine.progress 1 "c"]
     (by norm_num [progressPercents, List.filterMap_cons, List.chain'_cons])⟩

/-- `checkoutBranch` performs exactly one git invocation, with the argument
list, working directory, operation name and options built by its helpers. -/
theorem checkoutBranch_gitInvocations (darwin flag : Bool)
    (repository : Repository) (account : Option IGitAccount) (branch : Branch)
    (progressCallback : Bool) (lines : List ParsedLine) (gitSucceeds : Bool) :
    gitInvocations
      (checkoutBranch darwin flag repository account branch progressCallback
        lines gitSucceeds).1 =
      [(getCheckoutArgs progressCallback ++
          getBranchCheckoutArgs flag branch,
        repository.path, "checkoutBranch",
        some (getCheckoutOpts repository account
          ("Checking out branch " ++ branch.name) branch.name
          progressCallback
          (some (if darwin then "Switching to Branch"
                 else "Switching to branch"))).1)] := by
  cases progressCallback <;>
    simp [checkoutBranch, getCheckoutOpts, git, gitInvocations,
      executionOptionsWithProgress, List.filterMap_append]

/-- `checkoutCommit` performs exactly one git invocation, with the argument
list, working directory, operation name and options built by its helpers. -/
theorem checkoutCommit_gitInvocations (darwin : Bool)
    (repository : Repository) (account : Option IGitAccount)
    (commit : CommitOneLine) (progressCallback : Bool)
    (lines : List ParsedLine) (gitSucceeds : Bool) :
    gitInvocations
      (checkoutCommit darwin repository account commit progressCallback
        lines gitSucceeds).1 =
      [(getCheckoutArgs progressCallback ++ [commit.sha],
        repository.path, "checkoutCommit",
        some (getCheckoutOpts repository account
          (if darwin then "Checking out Commit" else "Checking out commit")
          (shortenSHA commit.sha) progressCallback none).1)] := by
  cases progressCallback <;>
    simp [checkoutCommit, getCheckoutOpts, git, gitInvocations,
      executionOptionsWithProgress, List.filterMap_append]

/-- The first element of a branch-checkout argument tail is the branch
name. -/
theorem getBranchCheckoutArgs_head (flag : Bool) (branch : Branch) :
    (getBranchCheckoutArgs flag branch).head? = some branch.name := by
  cases flag <;> rcases branch with ⟨n, nwr, t⟩ <;> cases t <;>
    simp [getBranchCheckoutArgs]

/-- C6: every `checkoutBranch` and `checkoutCommit` invocation passes git an
argument list beginning with the fixed network-safety arguments followed by
the `checkout` subcommand, and the element right after `checkout` is
`--progress` if and only if a progress callback was supplied (for any branch
name / SHA that is not itself the string `--progress`). -/
theorem checkout_network_args_then_progress_flag (darwin flag : Bool)
    (repository : Repository) (account : Option IGitAccount) (branch : Branch)
    (commit : CommitOneLine) (progressCallback : Bool)
    (lines : List ParsedLine) (gitSucceeds : Bool)
    (hb : branch.name ≠ "--progress") (hc : commit.sha ≠ "--progress") :
    (∃ rest opts,
      gitInvocations
        (checkoutBranch darwin flag repository account branch
          progressCallback lines gitSucceeds).1 =
        [(gitNetworkArguments ++ ["checkout"] ++ rest,
          repository.path, "checkoutBranch", opts)] ∧
      (rest.head? = some "--progress" ↔ progressCallback = true)) ∧
    (∃ rest opts,
      gitInvocations
        (checkoutCommit darwin repository account commit progressCallback
          lines gitSucceeds).1 =
        [(gitNetworkArguments ++ ["checkout"] ++ rest,
          repository.path, "checkoutCommit", opts)] ∧
      (rest.head? = some "--progress" ↔ progressCallback = true)) := by
  constructor
  · cases progressCallback with
    | false =>
      refine ⟨getBranchCheckoutArgs flag branch,
        some (getCheckoutOpts repository account
          ("Checking out branch " ++ branch.name) branch.name false
          (some (if darwin then "Switching to Branch"
                 else "Switching to branch"))).1, ?_, ?_⟩
      · rw [checkoutBranch_gitInvocations]
        simp [getCheckoutArgs]
      · simp [getBranchCheckoutArgs_head, hb]
    | true =>
      refine ⟨"--progress" :: getBranchCheckoutArgs flag branch,
        some (getCheckoutOpts repository account
          ("Checking out branch " ++ branch.name) branch.name true
          (some (if darwin then "Switching to Branch"
                 else "Switching to branch"))).1, ?_, ?_⟩
      · rw [checkoutBranch_gitInvocations]
        simp [getCheckoutArgs]
      · simp
  · cases progressCallback with
    | false =>
      refine ⟨[commit.sha],
        some (getCheckoutOpts repository account
          (if darwin then "Checking out Commit" else "Checking out commit")
          (shortenSHA commit.sha) false none).1, ?_, ?_⟩
      · rw [checkoutCommit_gitInvocations]
        simp [getCheckoutArgs]
      · simp [hc]
    | true =>
      refine ⟨["--progress", commit.sha],
        some (getCheckoutOpts repository account
          (if darwin then "Checking out Commit" else "Checking out commit")
          (shortenSHA commit.sha) true none).1, ?_, ?_⟩
      · rw [checkoutCommit_gitInvocations]
        simp [getCheckoutArgs]
      · simp

/-- Witness for C6 at a concrete branch, commit and invocation. -/
theorem checkout_network_args_then_progress_flag_witness :
    ("feature-x" ≠ "--progress") ∧ ("abc123" ≠ "--progress") ∧
    ((∃ rest opts,
      gitInvocations
        (checkoutBranch false false
          { path := "/repo", remoteUrl := "https://example.com/r.git" } none
          { name := "feature-x", nameWithoutRemote := "feature-x",
            type := BranchType.Local } true [] true).1 =
        [(gitNetworkArguments ++ ["checkout"] ++ rest, "/repo",
          "checkoutBranch", opts)] ∧
      (rest.head? = some "--progress" ↔ true = true)) ∧
    (∃ rest opts,
      gitInvocations
        (checkoutCommit false
          { path := "/repo", remoteUrl := "https://example.com/r.git" } none
          { sha := "abc123", summary := "m" } true [] true).1 =
        [(gitNetworkArguments ++ ["checkout"] ++ rest, "/repo",
          "checkoutCommit", opts)] ∧
      (rest.head? = some "--progress" ↔ true = true))) :=
  ⟨by decide, by decide,
   checkout_network_args_then_progress_flag false false
     { path := "/repo", remoteUrl := "https://example.com/r.git" } none
     { name := "feature-x", nameWithoutRemote := "feature-x",
       type := BranchType.Local }
     { sha := "abc123", summary := "m" } true [] true
     (by decide) (by decide)⟩

/-- C7: every `checkoutBranch` and `checkoutCommit` invocation, with or
without a progress callback, passes execution options whose recognized-error
table is the `AuthenticationErrors` signature table and whose environment is
the overlay built by `envForRemoteOperation` from the supplied account and
the proxy-fallback URL. -/
theorem checkout_auth_errors_and_env (darwin flag : Bool)
    (repository : Repository) (account : Option IGitAccount) (branch : Branch)
    (commit : CommitOneLine) (progressCallback : Bool)
    (lines : List ParsedLine) (gitSucceeds : Bool) :
    (∃ args opts,
      gitInvocations
        (checkoutBranch darwin flag repository account branch
          progressCallback lines gitSucceeds).1 =
        [(args, repository.path, "checkoutBranch", some opts)] ∧
      opts.expectedErrors = some AuthenticationErrors ∧
      opts.env = some (envForRemoteOperation account
        (getFallbackUrlForProxyResolve account repository))) ∧
    (∃ args opts,
      gitInvocations
        (checkoutCommit darwin repository account commit progressCallback
          lines gitSucceeds).1 =
        [(args, repository.path, "checkoutCommit", some opts)] ∧
      opts.expectedErrors = some AuthenticationErrors ∧
      opts.env = some (envForRemoteOperation account
        (getFallbackUrlForProxyResolve account repository))) := by
  constructor
  · refine ⟨getCheckoutArgs progressCallback ++
        getBranchCheckoutArgs flag branch,
      (getCheckoutOpts repository account
        ("Checking out branch " ++ branch.name) branch.name
        progressCallback
        (some (if darwin then "Switching to Branch"
               else "Switching to branch"))).1,
      checkoutBranch_gitInvocations darwin flag repository account branch
        progressCallback lines gitSucceeds, ?_, ?_⟩ <;>
    cases progressCallback <;>
      simp [getCheckoutOpts, executionOptionsWithProgress]
  · refine ⟨getCheckoutArgs progressCallback ++ [commit.sha],
      (getCheckoutOpts repository account
        (if darwin then "Checking out Commit" else "Checking out commit")
        (shortenSHA commit.sha) progressCallback none).1,
      checkoutCommit_gitInvocations darwin repository account commit
        progressCallback lines gitSucceeds, ?_, ?_⟩ <;>
    cases progressCallback <;>
      simp [getCheckoutOpts, executionOptionsWithProgress]

/-- C8: `checkoutPaths` performs exactly one action: it invokes git with
exactly `["checkout", "HEAD", "--"] ++ paths` in the repository's path, with
no execution options (hence no progress tracking, no network-safety
arguments, no recognized-error table) and no progress events. -/
theorem checkoutPaths_spec (repository : Repository) (paths : List String)
    (lines : List ParsedLine) :
    checkoutPaths repository paths lines =
      [Action.spawnGit (["checkout", "HEAD", "--"] ++ paths)
        repository.path "checkoutPaths" none] :=
  rfl

/-- C9: whenever the underlying git invocation succeeds, `checkoutBranch`
and `checkoutCommit` resolve with the literal value `true`, for every
combination of repository, account, target and optional progress callback. -/
theorem checkout_resolves_true (darwin flag : Bool) (repository : Repository)
    (account : Option IGitAccount) (branch : Branch) (commit : CommitOneLine)
    (progressCallback : Bool) (lines : List ParsedLine) :
    (checkoutBranch darwin flag repository account branch progressCallback
      lines true).2 = some true ∧
    (checkoutCommit darwin repository account commit progressCallback
      lines true).2 = some true :=
  ⟨rfl, rfl⟩

/-- C10: with a progress callback supplied, the execution options passed by
`checkoutBranch` and `checkoutCommit` to the process runner have
`trackLFSProgress` set to `true` and carry the attached progress consumer;
without a callback they carry no LFS tracking and no progress consumer at
all. -/
theorem checkout_lfs_tracking (darwin flag : Bool) (repository : Repository)
    (account : Option IGitAccount) (branch : Branch) (commit : CommitOneLine)
    (lines : List ParsedLine) (gitSucceeds : Bool) :
    (∃ args opts,
      gitInvocations
        (checkoutBranch darwin flag repository account branch true lines
          gitSucceeds).1 = [(args, repository.path, "checkoutBranch",
            some opts)] ∧
      opts.trackLFSProgress = some true ∧
      opts.progressHandler = some (checkoutProgressHandler
        ("Checking out branch " ++ branch.name) branch.name)) ∧
    (∃ args opts,
      gitInvocations
        (checkoutBranch darwin flag repository account branch false lines
          gitSucceeds).1 = [(args, repository.path, "checkoutBranch",
            some opts)] ∧
      opts.trackLFSProgress = none ∧ opts.progressHandler = none) ∧
    (∃ args opts,
      gitInvocations
        (checkoutCommit darwin repository account commit true lines
          gitSucceeds).1 = [(args, repository.path, "checkoutCommit",
            some opts)] ∧
      opts.trackLFSProgress = some true ∧
      opts.progressHandler = some (checkoutProgressHandler
        (if darwin then "Checking out Commit" else "Checking out commit")
        (shortenSHA commit.sha))) ∧
    (∃ args opts,
      gitInvocations
        (checkoutCommit darwin repository account commit false lines
          gitSucceeds).1 = [(args, repository.path, "checkoutCommit",
            some opts)] ∧
      opts.trackLFSProgress = none ∧ opts.progressHandler = none) := by
  refine ⟨⟨getCheckoutArgs true ++ getBranchCheckoutArgs flag branch,
      (getCheckoutOpts repository account
        ("Checking out branch " ++ branch.name) branch.name true
        (some (if darwin then "Switching to Branch"
               else "Switching to branch"))).1,
      checkoutBranch_gitInvocations darwin flag repository account branch
        true lines gitSucceeds, rfl, rfl⟩,
    ⟨getCheckoutArgs false ++ getBranchCheckoutArgs flag branch,
      (getCheckoutOpts repository account
        ("Checking out branch " ++ branch.name) branch.name false
        (some (if darwin then "Switching to Branch"
               else "Switching to branch"))).1,
      checkoutBranch_gitInvocations darwin flag repository account branch
        false lines gitSucceeds, rfl, rfl⟩,
    ⟨getCheckoutArgs true ++ [commit.sha],
      (getCheckoutOpts repository account
        (if darwin then "Checking out Commit" else "Checking out commit")
        (shortenSHA commit.sha) true none).1,
      checkoutCommit_gitInvocations darwin repository account commit true
        lines gitSucceeds, rfl, rfl⟩,
    ⟨getCheckoutArgs false ++ [commit.sha],
      (getCheckoutOpts repository account
        (if darwin then "Checking out Commit" else "Checking out commit")
        (shortenSHA commit.sha) false none).1,
      checkoutCommit_gitInvocations darwin repository account commit false
        lines gitSucceeds, rfl, rfl⟩⟩

end Checkout
